import Mathlib

/-!
Shallow embedding of `tool/analyze_packages.py`: a runner that executes
`dart analyze --fatal-infos` on every sub-package of `packages/`, skipping
the packages listed in `.dart_analyze_skip`, and aggregates the results
into a single exit code.

The filesystem and the analyzer subprocess are modelled as inputs in a
`World` structure; `mainRun` mirrors the `main` function of the script.
-/

namespace AnalyzePackages

/-- Python ASCII whitespace characters, the ones `str.strip()` removes
(restricted to the ASCII range the tool ever encounters). -/
def pyWs (c : Char) : Bool :=
  c = ' ' || c = '\t' || c = '\n' || c = '\r' || c = '\x0b' || c = '\x0c'

/-- `line.strip()` of Python: drop whitespace from both ends. -/
def pstrip (s : String) : String :=
  ⟨((s.data.dropWhile pyWs).reverse.dropWhile pyWs).reverse⟩

/-- `stripped.startswith("#")`: the string begins with the character `#`. -/
def startsHash (s : String) : Bool :=
  match s.data with
  | [] => false
  | c :: _ => c = '#'

/-- The guard `if stripped and not stripped.startswith("#")` on an
already-stripped line. -/
def keepLine (s : String) : Bool :=
  !(s == "") && !(startsHash s)

/-- `_load_skip_list`: the argument is `none` when `.dart_analyze_skip` does
not exist (the `os.path.isfile` check fails), otherwise the list of lines of
the file.  Each line is stripped; non-empty lines not starting with `#` are
added to the set. -/
def _load_skip_list : Option (List String) → Finset String
  | none => ∅
  | some lines =>
      lines.foldl
        (fun names line =>
          let stripped := pstrip line
          if keepLine stripped then insert stripped names else names)
        ∅

/-- The inputs `main` reads from its surroundings: the skip-list file
(`none` when absent), the raw `os.listdir(packages_dir)` listing, whether
each entry directly contains a `pubspec.yaml` file, the exit code the
analyzer subprocess returns for each package, and `os.environ`. -/
structure World where
  skipFile : Option (List String)
  entries : List String
  hasPubspec : String → Bool
  analyzer : String → Int
  procEnv : List (String × String)

/-- `env = {k: v for k, v in os.environ.items() if k not in ("GIT_DIR", "GIT_WORK_TREE")}` -/
def cleanEnv (e : List (String × String)) : List (String × String) :=
  e.filter (fun kv => !(kv.1 == "GIT_DIR" || kv.1 == "GIT_WORK_TREE"))

/-- `sorted(os.listdir(packages_dir))`: the directory listing in
lexicographic order. -/
def sortedNames (w : World) : List String :=
  List.insertionSort (· ≤ ·) w.entries

/-- The skip set of the run. -/
def skipSet (w : World) : Finset String :=
  _load_skip_list w.skipFile

/-- The mutable state of the `for name in sorted(...)` loop: the `skipped`
and `failed` tallies of the script, plus instrumentation recording which
names passed the manifest check (`considered`), which were handed to the
analyzer subprocess (`analyzed`), and the environment mapping passed to
each subprocess invocation (`envs`). -/
structure LoopState where
  considered : List String
  skipped : List String
  analyzed : List String
  failed : List String
  envs : List (List (String × String))
  deriving DecidableEq

/-- The state at loop entry. -/
def initState : LoopState := ⟨[], [], [], [], []⟩

/-- One iteration of the loop body for directory entry `name`. -/
def step (skip : Finset String) (hasPub : String → Bool) (az : String → Int)
    (env : List (String × String)) (st : LoopState) (name : String) : LoopState :=
  if !hasPub name then st
  else if name ∈ skip then
    { st with considered := st.considered ++ [name],
              skipped := st.skipped ++ [name] }
  else
    let st1 : LoopState :=
      { st with considered := st.considered ++ [name],
                analyzed := st.analyzed ++ [name],
                envs := st.envs ++ [env] }
    if az name ≠ 0 then { st1 with failed := st1.failed ++ [name] } else st1

/-- The loop of `main`, run over a given entry list. -/
def runLoopOn (w : World) (names : List String) : LoopState :=
  names.foldl
    (step (skipSet w) w.hasPubspec w.analyzer (cleanEnv w.procEnv)) initState

/-- The state after the whole loop of `main`. -/
def runLoop (w : World) : LoopState :=
  runLoopOn w (sortedNames w)

/-- What `main` produces: the exit code, the two tallies, the analyzed
packages, the environment passed to each invocation, and the text written
to the two streams. -/
structure RunResult where
  exitCode : Nat
  failed : List String
  skipped : List String
  considered : List String
  analyzed : List String
  envPassed : List (List (String × String))
  stdoutLines : List String
  stderrLines : List String

/-- `main` of the script. -/
def mainRun (w : World) : RunResult :=
  let st := runLoop w
  { exitCode := if st.failed = [] then 0 else 1
    failed := st.failed
    skipped := st.skipped
    considered := st.considered
    analyzed := st.analyzed
    envPassed := st.envs
    stdoutLines :=
      (st.analyzed.map (fun n => "Analyzing " ++ n ++ "...")) ++
        (if st.skipped = [] then []
         else ["Skipped: " ++ String.intercalate ", " st.skipped])
    stderrLines :=
      if st.failed = [] then []
      else ["\nAnalysis failed for: " ++ String.intercalate ", " st.failed] }

/-- A directory entry reaches the skip/analyze decision iff it has a
manifest. -/
def consideredPred (w : World) (n : String) : Bool :=
  w.hasPubspec n

/-- A directory entry is recorded as skipped iff it has a manifest and is
in the skip set. -/
def skippedPred (w : World) (n : String) : Bool :=
  w.hasPubspec n && decide (n ∈ skipSet w)

/-- A directory entry is handed to the analyzer iff it has a manifest and
is not in the skip set. -/
def analyzedPred (w : World) (n : String) : Bool :=
  w.hasPubspec n && !(decide (n ∈ skipSet w))

/-- A directory entry ends in the failure list iff it is analyzed and the
analyzer returns a non-zero code. -/
def failedPred (w : World) (n : String) : Bool :=
  analyzedPred w n && decide (w.analyzer n ≠ 0)

/-- The loop state after processing the first `i` entries of the sorted
listing: a point partway through the traversal. -/
def stateAt (w : World) (i : Nat) : LoopState :=
  runLoopOn w ((sortedNames w).take i)

/-- A concrete repository whose single package `a` is listed in the skip
file. -/
def wA : World :=
  { skipFile := some ["a"]
    entries := ["a"]
    hasPubspec := fun _ => true
    analyzer := fun _ => 1
    procEnv := [("GIT_DIR", "/g")] }

/-- A concrete repository whose single package `b` fails analysis. -/
def wB : World :=
  { skipFile := none
    entries := ["b"]
    hasPubspec := fun n => n == "b"
    analyzer := fun _ => 1
    procEnv := [("PATH", "/bin"), ("GIT_DIR", "/g"), ("GIT_WORK_TREE", "/t")] }

/-! ### Characterization of the loop -/

lemma foldl_step_eq (w : World) (l : List String) (st : LoopState) :
    l.foldl (step (skipSet w) w.hasPubspec w.analyzer (cleanEnv w.procEnv)) st =
      { considered := st.considered ++ l.filter (consideredPred w)
        skipped := st.skipped ++ l.filter (skippedPred w)
        analyzed := st.analyzed ++ l.filter (analyzedPred w)
        failed := st.failed ++ l.filter (failedPred w)
        envs := st.envs ++
          (l.filter (analyzedPred w)).map (fun _ => cleanEnv w.procEnv) } := by
  induction l generalizing st with
  | nil => simp
  | cons a l ih =>
    rw [List.foldl_cons, ih]
    by_cases h1 : w.hasPubspec a = true
    · by_cases h2 : a ∈ skipSet w
      · have hs : skippedPred w a = true := by
          simp [skippedPred, h1, h2]
        have hc : consideredPred w a = true := h1
        have hna : analyzedPred w a = false := by
          simp [analyzedPred, h2]
        have hnf : failedPred w a = false := by
          simp [failedPred, hna]
        cases st
        simp [step, h1, h2, hc, hs, hna, hnf, List.filter_cons]
      · by_cases h3 : w.analyzer a = 0
        · have ha : analyzedPred w a = true := by
            simp [analyzedPred, h1, h2]
          have hns : skippedPred w a = false := by
            simp [skippedPred, h2]
          have hnf : failedPred w a = false := by
            simp [failedPred, h3]
          cases st
          simp [step, h1, h2, h3, consideredPred, hns, ha, hnf, List.filter_cons]
        · have ha : analyzedPred w a = true := by
            simp [analyzedPred, h1, h2]
          have hns : skippedPred w a = false := by
            simp [skippedPred, h2]
          have hf : failedPred w a = true := by
            simp [failedPred, ha, h3]
          cases st
          simp [step, h1, h2, h3, consideredPred, hns, ha, hf, List.filter_cons]
    · have h1f : w.hasPubspec a = false := by
        simpa using h1
      have hnc : consideredPred w a = false := h1f
      have hns : skippedPred w a = false := by
        simp [skippedPred, h1f]
      have hna : analyzedPred w a = false := by
        simp [analyzedPred, h1f]
      have hnf : failedPred w a = false := by
        simp [failedPred, hna]
      cases st
      simp [step, h1f, hnc, hns, hna, hnf, List.filter_cons]

lemma runLoopOn_eq (w : World) (l : List String) :
    runLoopOn w l =
      { considered := l.filter (consideredPred w)
        skipped := l.filter (skippedPred w)
        analyzed := l.filter (analyzedPred w)
        failed := l.filter (failedPred w)
        envs := (l.filter (analyzedPred w)).map (fun _ => cleanEnv w.procEnv) } := by
  simpa [initState] using foldl_step_eq w l initState

lemma mainRun_considered (w : World) :
    (mainRun w).considered = (sortedNames w).filter (consideredPred w) := by
  simp [mainRun, runLoop, runLoopOn_eq]

lemma mainRun_skipped (w : World) :
    (mainRun w).skipped = (sortedNames w).filter (skippedPred w) := by
  simp [mainRun, runLoop, runLoopOn_eq]

lemma mainRun_analyzed (w : World) :
    (mainRun w).analyzed = (sortedNames w).filter (analyzedPred w) := by
  simp [mainRun, runLoop, runLoopOn_eq]

lemma mainRun_failed (w : World) :
    (mainRun w).failed = (sortedNames w).filter (failedPred w) := by
  simp [mainRun, runLoop, runLoopOn_eq]

lemma mainRun_envPassed (w : World) :
    (mainRun w).envPassed =
      ((sortedNames w).filter (analyzedPred w)).map (fun _ => cleanEnv w.procEnv) := by
  simp [mainRun, runLoop, runLoopOn_eq]

lemma mainRun_exitCode (w : World) :
    (mainRun w).exitCode = if (mainRun w).failed = [] then 0 else 1 := by
  simp [mainRun]

lemma mem_sortedNames (w : World) (n : String) :
    n ∈ sortedNames w ↔ n ∈ w.entries :=
  (List.perm_insertionSort _ w.entries).mem_iff

lemma sorted_sortedNames (w : World) :
    (sortedNames w).Sorted (· ≤ ·) :=
  List.sorted_insertionSort _ w.entries

lemma nodup_sortedNames (w : World) (h : w.entries.Nodup) :
    (sortedNames w).Nodup :=
  ((List.perm_insertionSort _ w.entries).nodup_iff).mpr h

lemma failedPred_iff (w : World) (n : String) :
    failedPred w n = true ↔
      w.hasPubspec n = true ∧ n ∉ skipSet w ∧ w.analyzer n ≠ 0 := by
  simp [failedPred, analyzedPred, and_assoc]

lemma skippedPred_iff (w : World) (n : String) :
    skippedPred w n = true ↔ w.hasPubspec n = true ∧ n ∈ skipSet w := by
  simp [skippedPred]

lemma analyzedPred_iff (w : World) (n : String) :
    analyzedPred w n = true ↔ w.hasPubspec n = true ∧ n ∉ skipSet w := by
  simp [analyzedPred]

lemma cleanEnv_key_ne (e : List (String × String)) :
    ∀ kv ∈ cleanEnv e, kv.1 ≠ "GIT_DIR" ∧ kv.1 ≠ "GIT_WORK_TREE" := by
  intro kv hkv
  have h := List.of_mem_filter hkv
  simpa using h

lemma lookup_filter_of_keep (p : String × String → Bool) (k : String)
    (hp : ∀ v, p (k, v) = true) :
    ∀ e : List (String × String), (e.filter p).lookup k = e.lookup k := by
  intro e
  induction e with
  | nil => rfl
  | cons kv e ih =>
    obtain ⟨k0, v0⟩ := kv
    rw [List.filter_cons]
    by_cases hk : (k == k0) = true
    · have hkeq : k = k0 := by simpa using hk
      subst hkeq
      rw [if_pos (hp v0)]
      simp [List.lookup_cons]
    · have hkf : (k == k0) = false := by simpa using hk
      by_cases hpk : p (k0, v0) = true
      · rw [if_pos hpk]
        simp [List.lookup_cons, hkf, ih]
      · rw [if_neg hpk, ih]
        simp [List.lookup_cons, hkf]

lemma lookup_cleanEnv_other (e : List (String × String)) (k : String)
    (h1 : k ≠ "GIT_DIR") (h2 : k ≠ "GIT_WORK_TREE") :
    (cleanEnv e).lookup k = e.lookup k := by
  apply lookup_filter_of_keep
  intro v
  simp [h1, h2]

/-! ### Claims -/

/-- Claim C1: the exit code is `1` iff at least one qualifying (manifest
present), non-skipped package has an analyzer returning a non-zero exit
code, and `0` iff no such package exists — so skipped packages and
directories without a manifest never affect the exit code. -/
theorem exit_code_iff_some_failure (w : World) :
    ((mainRun w).exitCode = 1 ↔
      ∃ n, n ∈ w.entries ∧ w.hasPubspec n = true ∧ n ∉ skipSet w ∧
        w.analyzer n ≠ 0) ∧
    ((mainRun w).exitCode = 0 ↔
      ∀ n, n ∈ w.entries → w.hasPubspec n = true → n ∉ skipSet w →
        w.analyzer n = 0) := by
  have hkey : (mainRun w).failed = [] ↔
      ∀ n, n ∈ w.entries → w.hasPubspec n = true → n ∉ skipSet w →
        w.analyzer n = 0 := by
    rw [mainRun_failed, List.filter_eq_nil_iff]
    constructor
    · intro h n hn hp hs
      by_contra hne
      exact h n ((mem_sortedNames w n).mpr hn)
        ((failedPred_iff w n).mpr ⟨hp, hs, hne⟩)
    · intro h n hn hf
      obtain ⟨hp, hs, hne⟩ := (failedPred_iff w n).mp hf
      exact hne (h n ((mem_sortedNames w n).mp hn) hp hs)
  have hex : (∃ n, n ∈ w.entries ∧ w.hasPubspec n = true ∧ n ∉ skipSet w ∧
        w.analyzer n ≠ 0) ↔
      ¬ ∀ n, n ∈ w.entries → w.hasPubspec n = true → n ∉ skipSet w →
        w.analyzer n = 0 := by
    push_neg
    tauto
  rw [mainRun_exitCode, hex, ← hkey]
  by_cases hf : (mainRun w).failed = [] <;> simp [hf]

/-- Claim C2: a package is in the failure list iff it was analyzed and its
analyzer returned non-zero (every such failure is recorded), and the set of
considered, analyzed and skipped packages does not depend on the analyzer
results at all — a failing analyzer never stops the traversal. -/
theorem failure_recorded_and_traversal_continues (w : World) :
    (∀ n, n ∈ (mainRun w).failed ↔
      n ∈ (mainRun w).analyzed ∧ w.analyzer n ≠ 0) ∧
    (∀ az : String → Int,
      (mainRun { w with analyzer := az }).considered = (mainRun w).considered ∧
      (mainRun { w with analyzer := az }).analyzed = (mainRun w).analyzed ∧
      (mainRun { w with analyzer := az }).skipped = (mainRun w).skipped) := by
  constructor
  · intro n
    rw [mainRun_failed, mainRun_analyzed, List.mem_filter, List.mem_filter]
    simp only [failedPred, Bool.and_eq_true, decide_eq_true_eq]
    tauto
  · intro az
    refine ⟨?_, ?_, ?_⟩
    · rw [mainRun_considered, mainRun_considered]; rfl
    · rw [mainRun_analyzed, mainRun_analyzed]; rfl
    · rw [mainRun_skipped, mainRun_skipped]; rfl

/-- Claim C3: a directory entry appears in the traversed (considered)
sequence iff it is an entry of the packages root that directly contains a
`pubspec.yaml`; entries without one are excluded whatever their name, and
the considered sequence does not depend on the skip list. -/
theorem considered_iff_has_manifest (w : World) :
    (∀ n, n ∈ (mainRun w).considered ↔
      n ∈ w.entries ∧ w.hasPubspec n = true) ∧
    (∀ sf, (mainRun { w with skipFile := sf }).considered =
      (mainRun w).considered) := by
  constructor
  · intro n
    rw [mainRun_considered, List.mem_filter, mem_sortedNames]
    exact Iff.rfl
  · intro sf
    rw [mainRun_considered, mainRun_considered]
    rfl

/-- Claim C4: for every contents of the packages root, the qualifying
packages are traversed, and analyzed, in lexicographically sorted order of
directory name. -/
theorem qualifying_processed_in_sorted_order (w : World) :
    (mainRun w).considered.Sorted (· ≤ ·) ∧
    (mainRun w).analyzed.Sorted (· ≤ ·) := by
  rw [mainRun_considered, mainRun_analyzed]
  exact ⟨(sorted_sortedNames w).filter _, (sorted_sortedNames w).filter _⟩

lemma load_skip_foldl (lines : List String) (s0 : Finset String) :
    lines.foldl
        (fun names line =>
          let stripped := pstrip line
          if keepLine stripped then insert stripped names else names) s0 =
      s0 ∪ ((lines.map pstrip).filter keepLine).toFinset := by
  induction lines generalizing s0 with
  | nil => simp
  | cons a l ih =>
    simp only [List.foldl_cons, List.map_cons, List.filter_cons]
    by_cases h : keepLine (pstrip a) = true
    · rw [if_pos h, ih, if_pos h]
      simp [Finset.insert_union, Finset.union_insert]
    · rw [if_neg h, ih, if_neg h]

/-- Claim C5: for every skip-list file contents, the loaded skip set is
exactly the set of stripped lines that survive the non-empty,
non-`#`-comment guard; every member is the stripped form of one of the
lines. A file of only comments and blank lines therefore yields the empty
set. -/
theorem skip_set_is_kept_stripped_lines (lines : List String) :
    _load_skip_list (some lines) =
      ((lines.map pstrip).filter keepLine).toFinset ∧
    (∀ s, s ∈ _load_skip_list (some lines) ↔
      ∃ l, l ∈ lines ∧ pstrip l = s ∧ keepLine s = true) ∧
    ((∀ l ∈ lines, keepLine (pstrip l) = false) →
      _load_skip_list (some lines) = ∅) := by
  have heq : _load_skip_list (some lines) =
      ((lines.map pstrip).filter keepLine).toFinset := by
    rw [_load_skip_list]
    simpa using load_skip_foldl lines ∅
  refine ⟨heq, ?_, ?_⟩
  · intro s
    rw [heq]
    simp only [List.mem_toFinset, List.mem_filter, List.mem_map]
    constructor
    · rintro ⟨⟨l, hl, rfl⟩, hk⟩
      exact ⟨l, hl, rfl, hk⟩
    · rintro ⟨l, hl, rfl, hk⟩
      exact ⟨⟨l, hl, rfl⟩, hk⟩
  · intro hall
    rw [heq]
    have : (lines.map pstrip).filter keepLine = [] := by
      rw [List.filter_eq_nil_iff]
      rintro s hs
      obtain ⟨l, hl, rfl⟩ := List.mem_map.mp hs
      simp [hall l hl]
    rw [this]
    rfl

/-- Claim C6: when the skip-list file `.dart_analyze_skip` does not exist,
loading the skip list yields the empty set (no error is raised: the
function is total). -/
theorem missing_skip_file_gives_empty_set : _load_skip_list none = ∅ := rfl

/-- Claim C7: the environment passed to every analyzer subprocess is the
process environment with exactly the keys `GIT_DIR` and `GIT_WORK_TREE`
removed: those two keys look up to nothing, every other key looks up to
its original value, and every invocation receives that same mapping. -/
theorem subprocess_env_strips_exactly_git_vars (w : World) (k : String)
    (h1 : k ≠ "GIT_DIR") (h2 : k ≠ "GIT_WORK_TREE") :
    (cleanEnv w.procEnv).lookup "GIT_DIR" = none ∧
    (cleanEnv w.procEnv).lookup "GIT_WORK_TREE" = none ∧
    (cleanEnv w.procEnv).lookup k = w.procEnv.lookup k ∧
    (∀ e, e ∈ (mainRun w).envPassed → e = cleanEnv w.procEnv) := by
  refine ⟨?_, ?_, lookup_cleanEnv_other w.procEnv k h1 h2, ?_⟩
  · rw [List.lookup_eq_none_iff]
    intro p hp
    simpa using (cleanEnv_key_ne w.procEnv p hp).1.symm
  · rw [List.lookup_eq_none_iff]
    intro p hp
    simpa using (cleanEnv_key_ne w.procEnv p hp).2.symm
  · intro e he
    rw [mainRun_envPassed] at he
    obtain ⟨n, _, hn⟩ := List.mem_map.mp he
    exact hn.symm

/-- Claim C8: if every qualifying package (one with a manifest) is in the
skip set, no analyzer subprocess is invoked (nothing is analyzed, no
environment is passed to any subprocess) and the exit code is `0`. -/
theorem all_skipped_means_no_subprocess_and_exit_zero (w : World)
    (h : ∀ n ∈ w.entries, w.hasPubspec n = true → n ∈ skipSet w) :
    (mainRun w).analyzed = [] ∧ (mainRun w).envPassed = [] ∧
    (mainRun w).exitCode = 0 := by
  have hfilter : (sortedNames w).filter (analyzedPred w) = [] := by
    rw [List.filter_eq_nil_iff]
    intro n hn hp
    obtain ⟨hpub, hns⟩ := (analyzedPred_iff w n).mp hp
    exact hns (h n ((mem_sortedNames w n).mp hn) hpub)
  have hfail : (mainRun w).failed = [] := by
    rw [mainRun_failed, List.filter_eq_nil_iff]
    intro n hn hf
    obtain ⟨hpub, hns, _⟩ := (failedPred_iff w n).mp hf
    exact hns (h n ((mem_sortedNames w n).mp hn) hpub)
  refine ⟨?_, ?_, ?_⟩
  · rw [mainRun_analyzed, hfilter]
  · rw [mainRun_envPassed, hfilter]
    rfl
  · rw [mainRun_exitCode, if_pos hfail]

lemma mainRun_stderrLines (w : World) :
    (mainRun w).stderrLines =
      if (mainRun w).failed = [] then []
      else ["\nAnalysis failed for: " ++
        String.intercalate ", " (mainRun w).failed] := by
  simp [mainRun]

lemma mainRun_stdoutLines (w : World) :
    (mainRun w).stdoutLines =
      ((mainRun w).analyzed.map (fun n => "Analyzing " ++ n ++ "...")) ++
        (if (mainRun w).skipped = [] then []
         else ["Skipped: " ++ String.intercalate ", " (mainRun w).skipped]) := by
  simp [mainRun]

lemma filter_eq_singleton_of {α : Type} (l : List α) (p : α → Bool) (a : α)
    (hnd : l.Nodup) (ha : a ∈ l) (hpa : p a = true)
    (honly : ∀ b ∈ l, p b = true → b = a) :
    l.filter p = [a] := by
  induction l with
  | nil => cases ha
  | cons x l ih =>
    rw [List.filter_cons]
    rcases List.mem_cons.mp ha with rfl | hal
    · rw [if_pos hpa]
      have hnil : l.filter p = [] := by
        rw [List.filter_eq_nil_iff]
        intro b hb hpb
        have hbx := honly b (List.mem_cons_of_mem _ hb) hpb
        subst hbx
        exact (List.nodup_cons.mp hnd).1 hb
      rw [hnil]
    · have hx : p x = false := by
        rcases Bool.eq_false_or_eq_true (p x) with hb | hb
        · exfalso
          have hxa := honly x (List.mem_cons_self x l) hb
          subst hxa
          exact (List.nodup_cons.mp hnd).1 hal
        · exact hb
      rw [if_neg (by simp [hx])]
      exact ih (List.nodup_cons.mp hnd).2 hal
        (fun b hb hpb => honly b (List.mem_cons_of_mem _ hb) hpb)

/-- Claim C9: with exactly one qualifying, non-skipped package failing, the
exit code is `1`, the failure list is exactly that package (so its name
appears exactly once in the stderr summary), and in general the failure
summary is printed only when the failure list is non-empty and the skipped
summary only when the skipped list is non-empty. -/
theorem single_failure_reported_once (w : World) (p : String)
    (hnd : w.entries.Nodup) (hp : p ∈ w.entries)
    (hpub : w.hasPubspec p = true) (hns : p ∉ skipSet w)
    (hfail : w.analyzer p ≠ 0)
    (hothers : ∀ q ∈ w.entries, q ≠ p → w.hasPubspec q = true →
      q ∉ skipSet w → w.analyzer q = 0) :
    (mainRun w).exitCode = 1 ∧
    (mainRun w).failed = [p] ∧
    (mainRun w).failed.count p = 1 ∧
    (mainRun w).stderrLines = ["\nAnalysis failed for: " ++ p] ∧
    (∀ v : World, (mainRun v).stderrLines =
      if (mainRun v).failed = [] then []
      else ["\nAnalysis failed for: " ++
        String.intercalate ", " (mainRun v).failed]) ∧
    (∀ v : World, (mainRun v).stdoutLines =
      ((mainRun v).analyzed.map (fun n => "Analyzing " ++ n ++ "...")) ++
        (if (mainRun v).skipped = [] then []
         else ["Skipped: " ++ String.intercalate ", " (mainRun v).skipped])) := by
  have hfailed : (mainRun w).failed = [p] := by
    rw [mainRun_failed]
    apply filter_eq_singleton_of _ _ _ (nodup_sortedNames w hnd)
      ((mem_sortedNames w p).mpr hp) ((failedPred_iff w p).mpr ⟨hpub, hns, hfail⟩)
    intro q hq hfq
    obtain ⟨hqpub, hqns, hqne⟩ := (failedPred_iff w q).mp hfq
    by_contra hqp
    exact hqne (hothers q ((mem_sortedNames w q).mp hq) hqp hqpub hqns)
  refine ⟨?_, hfailed, ?_, ?_, mainRun_stderrLines, mainRun_stdoutLines⟩
  · rw [mainRun_exitCode, hfailed]
    simp
  · rw [hfailed]
    simp
  · rw [mainRun_stderrLines, hfailed]
    simp [String.intercalate, String.intercalate.go]

lemma stateAt_skipped (w : World) (i : Nat) :
    (stateAt w i).skipped = ((sortedNames w).take i).filter (skippedPred w) := by
  simp [stateAt, runLoopOn_eq]

lemma stateAt_failed (w : World) (i : Nat) :
    (stateAt w i).failed = ((sortedNames w).take i).filter (failedPred w) := by
  simp [stateAt, runLoopOn_eq]

/-- Claim C10: at every point of the traversal (after any number `i` of
loop iterations) and at its end, the skipped and failed lists are each
lexicographically sorted and duplicate-free, and no name is in both. -/
theorem tallies_sorted_nodup_disjoint (w : World)
    (hnd : w.entries.Nodup) (i : Nat) :
    ((stateAt w i).skipped.Sorted (· ≤ ·) ∧ (stateAt w i).skipped.Nodup ∧
     (stateAt w i).failed.Sorted (· ≤ ·) ∧ (stateAt w i).failed.Nodup ∧
     (∀ n, ¬(n ∈ (stateAt w i).skipped ∧ n ∈ (stateAt w i).failed))) ∧
    ((mainRun w).skipped = (stateAt w ((sortedNames w).length)).skipped ∧
     (mainRun w).failed = (stateAt w ((sortedNames w).length)).failed) := by
  have hsubS : List.Sublist (((sortedNames w).take i).filter (skippedPred w))
      (sortedNames w) :=
    (List.filter_sublist _).trans (List.take_sublist i (sortedNames w))
  have hsubF : List.Sublist (((sortedNames w).take i).filter (failedPred w))
      (sortedNames w) :=
    (List.filter_sublist _).trans (List.take_sublist i (sortedNames w))
  constructor
  · rw [stateAt_skipped, stateAt_failed]
    refine ⟨?_, ?_, ?_, ?_, ?_⟩
    · exact List.Pairwise.sublist hsubS (sorted_sortedNames w)
    · exact (nodup_sortedNames w hnd).sublist hsubS
    · exact List.Pairwise.sublist hsubF (sorted_sortedNames w)
    · exact (nodup_sortedNames w hnd).sublist hsubF
    · rintro n ⟨hnS, hnF⟩
      have h1 := (skippedPred_iff w n).mp (List.of_mem_filter hnS)
      have h2 := (failedPred_iff w n).mp (List.of_mem_filter hnF)
      exact h2.2.1 h1.2
  · rw [mainRun_skipped, mainRun_failed, stateAt_skipped, stateAt_failed,
      List.take_length]
    exact ⟨rfl, rfl⟩

/-! ### Concrete instantiations -/

/-- Claim C5 witness: a skip file made only of a comment and a blank line
loads as the empty set. -/
theorem skip_set_comments_only_witness :
    _load_skip_list (some ["# comment", "   "]) = ∅ :=
  (skip_set_is_kept_stripped_lines ["# comment", "   "]).2.2 (by decide)

/-- Claim C7 witness: on a concrete environment, `GIT_DIR` is removed and
`PATH` keeps its value. -/
theorem subprocess_env_witness :
    (cleanEnv wB.procEnv).lookup "GIT_DIR" = none ∧
    (cleanEnv wB.procEnv).lookup "PATH" = wB.procEnv.lookup "PATH" :=
  ⟨(subprocess_env_strips_exactly_git_vars wB "PATH" (by decide) (by decide)).1,
   (subprocess_env_strips_exactly_git_vars wB "PATH" (by decide)
      (by decide)).2.2.1⟩

/-- Claim C8 witness: in `wA` the only package is skipped, so nothing is
analyzed and the exit code is `0`. -/
theorem all_skipped_witness :
    (mainRun wA).analyzed = [] ∧ (mainRun wA).envPassed = [] ∧
    (mainRun wA).exitCode = 0 :=
  all_skipped_means_no_subprocess_and_exit_zero wA (by decide)

/-- Claim C9 witness: in `wB` the single failing package `b` yields exit
code `1`, failure list `[b]`, and a one-line stderr summary naming `b`
once. -/
theorem single_failure_witness :
    (mainRun wB).exitCode = 1 ∧ (mainRun wB).failed = ["b"] ∧
    (mainRun wB).failed.count "b" = 1 ∧
    (mainRun wB).stderrLines = ["\nAnalysis failed for: " ++ "b"] := by
  have h := single_failure_reported_once wB "b" (by decide) (by decide)
    (by decide) (by decide) (by decide) (by decide)
  exact ⟨h.1, h.2.1, h.2.2.1, h.2.2.2.1⟩

/-- Claim C10 witness: after one iteration in `wB`, the tallies are sorted,
duplicate-free and disjoint at `b`. -/
theorem tallies_invariant_witness :
    (stateAt wB 1).skipped.Sorted (· ≤ ·) ∧ (stateAt wB 1).skipped.Nodup ∧
    (stateAt wB 1).failed.Sorted (· ≤ ·) ∧ (stateAt wB 1).failed.Nodup ∧
    ¬("b" ∈ (stateAt wB 1).skipped ∧ "b" ∈ (stateAt wB 1).failed) := by
  have h := (tallies_sorted_nodup_disjoint wB (by decide) 1).1
  exact ⟨h.1, h.2.1, h.2.2.1, h.2.2.2.1, h.2.2.2.2 "b"⟩

end AnalyzePackages
